import Mathlib

/-!
Verification development for the Lite-Canvas-Tree workflow-diagram editor.

The definitions below are a shallow embedding of the interaction handlers in
src/App.tsx, of the storage adapter and of the generation adapter in
src/unnamed/part_003.  Coordinates and sizes are JavaScript numbers in the
source; every claim under scrutiny only involves addition, subtraction,
max, min and order comparisons, which agree with exact integer arithmetic,
so coordinates are modelled as Int.
-/

namespace LiteCanvas

/-- Node status enumeration from types (todo, in-progress, done). -/
inductive NodeStatus where
  | todo
  | inProgress
  | done
deriving DecidableEq, Repr

/-- Node type enumeration from types (task, milestone, decision, start-end). -/
inductive NodeType where
  | task
  | milestone
  | decision
  | startEnd
deriving DecidableEq, Repr

/-- WorkflowNode from types: id, position, size, title, description, status, type. -/
structure WorkflowNode where
  id : String
  x : Int
  y : Int
  width : Int
  height : Int
  title : String
  description : String
  status : NodeStatus
  type : NodeType
deriving DecidableEq, Repr

/-- Connection from types.  The source fields are named from and to; from is a
Lean keyword, so the fields are rendered fromId and toId here. -/
structure Connection where
  id : String
  fromId : String
  toId : String
deriving DecidableEq, Repr

/-- The selectionBox React state: start point plus live end point. -/
structure SelectionBox where
  startX : Int
  startY : Int
  endX : Int
  endY : Int
deriving DecidableEq, Repr

/-- A connection handle: source is the right-hand (outgoing) anchor,
target the left-hand (incoming) one. -/
inductive Handle where
  | source
  | target
deriving DecidableEq, Repr

/-- The connectionDraft React state. -/
structure ConnectionDraft where
  startNodeId : String
  startHandle : Handle
  startX : Int
  startY : Int
deriving DecidableEq, Repr

/-- One entry of the dragStartNodes ref: a node id with its position at drag start. -/
structure DragStartNode where
  id : String
  startX : Int
  startY : Int
deriving DecidableEq, Repr

/-- A pointer event, reduced to the fields the App handlers read. -/
structure PointerEvent where
  clientX : Int
  clientY : Int
  shiftKey : Bool
  ctrlKey : Bool
  metaKey : Bool
deriving DecidableEq, Repr

/-- The App component state relevant to the claims: canvas content, selection,
interaction drafts and refs, AI modal state, and the list of alert messages
shown to the user (each alert call appends its message). -/
structure AppState where
  nodes : List WorkflowNode
  connections : List Connection
  selectedNodeIds : List String
  selectedConnectionId : Option String
  selectionBox : Option SelectionBox
  selectionBaseline : List String
  connectionDraft : Option ConnectionDraft
  draggingNodeId : Option String
  dragStartMousePos : Int × Int
  dragStartNodes : List DragStartNode
  resizingNodeId : Option String
  resizeStartPos : Int × Int
  initialNodeSize : Int × Int
  mousePos : Int × Int
  currentCanvasId : Option String
  currentCanvasName : String
  isAIGenerating : Bool
  showAIPrompt : Bool
  aiPromptText : String
  alerts : List String
deriving DecidableEq, Repr

/-- The initial App state (all useState initialisers). -/
def initialState : AppState :=
  { nodes := []
    connections := []
    selectedNodeIds := []
    selectedConnectionId := none
    selectionBox := none
    selectionBaseline := []
    connectionDraft := none
    draggingNodeId := none
    dragStartMousePos := (0, 0)
    dragStartNodes := []
    resizingNodeId := none
    resizeStartPos := (0, 0)
    initialNodeSize := (0, 0)
    mousePos := (0, 0)
    currentCanvasId := none
    currentCanvasName := "Untitled Canvas"
    isAIGenerating := false
    showAIPrompt := false
    aiPromptText := ""
    alerts := [] }

/-- The modifier test e.shiftKey or e.ctrlKey or e.metaKey used by handlePointerDown. -/
def modifierHeld (e : PointerEvent) : Bool :=
  e.shiftKey || e.ctrlKey || e.metaKey

/-- The tail of the node-click branch of handlePointerDown: record the dragged
node, clear the connection selection, and snapshot the drag-start refs. -/
def beginDrag (s : AppState) (e : PointerEvent) (nodeId : String)
    (newSelectedIds : List String) : AppState :=
  { s with
    draggingNodeId := some nodeId
    selectedConnectionId := none
    dragStartNodes :=
      (s.nodes.filter (fun n => newSelectedIds.contains n.id)).map
        (fun n => { id := n.id, startX := n.x, startY := n.y })
    dragStartMousePos := (e.clientX, e.clientY) }

/-- handlePointerDown from src/App.tsx.  nodeId is none for a click on the
canvas background and some id for a pointer-down on a node body. -/
def handlePointerDown (s : AppState) (e : PointerEvent) (nodeId? : Option String) :
    AppState :=
  match nodeId? with
  | none =>
    let s1 :=
      if !(modifierHeld e) then
        { s with selectedNodeIds := [], selectionBaseline := [] }
      else
        { s with selectionBaseline := s.selectedNodeIds }
    { s1 with
      selectedConnectionId := none
      selectionBox := some
        { startX := e.clientX, startY := e.clientY
          endX := e.clientX, endY := e.clientY } }
  | some nodeId =>
    match s.nodes.find? (fun n => n.id == nodeId) with
    | none => s
    | some _ =>
      if !(s.selectedNodeIds.contains nodeId) then
        let newSelectedIds :=
          if !(modifierHeld e) then [nodeId] else s.selectedNodeIds ++ [nodeId]
        beginDrag { s with selectedNodeIds := newSelectedIds } e nodeId newSelectedIds
      else if modifierHeld e then
        { s with selectedNodeIds := s.selectedNodeIds.filter (fun id => !(id == nodeId)) }
      else
        beginDrag s e nodeId s.selectedNodeIds

/-- handleResizeStart from src/App.tsx. -/
def handleResizeStart (s : AppState) (e : PointerEvent) (nodeId : String) : AppState :=
  match s.nodes.find? (fun n => n.id == nodeId) with
  | none => s
  | some node =>
    { s with
      resizingNodeId := some nodeId
      resizeStartPos := (e.clientX, e.clientY)
      initialNodeSize := (node.width, node.height) }

/-- handleConnectStart from src/App.tsx.  The anchor ordinate is
node.y + node.height / 2; the source divides a JavaScript number by two, which
coincides with integer division whenever the height is even (no claim depends
on the anchor coordinates). -/
def handleConnectStart (s : AppState) (nodeId : String) (handle : Handle) : AppState :=
  match s.nodes.find? (fun n => n.id == nodeId) with
  | none => s
  | some node =>
    let startX := match handle with
      | .source => node.x + node.width
      | .target => node.x
    let startY := node.y + node.height / 2
    { s with
      connectionDraft := some
        { startNodeId := nodeId, startHandle := handle, startX := startX, startY := startY } }

/-- The normalized origin of the edge a draft produces when released over the
given target: a target-handle draft reverses the implied direction. -/
def draftFrom (draft : ConnectionDraft) (targetNodeId : String) : String :=
  match draft.startHandle with
  | .target => targetNodeId
  | .source => draft.startNodeId

/-- The normalized destination of the edge a draft produces when released over
the given target. -/
def draftTo (draft : ConnectionDraft) (targetNodeId : String) : String :=
  match draft.startHandle with
  | .target => draft.startNodeId
  | .source => targetNodeId

/-- handleConnectEnd from src/App.tsx.  The fresh connection id
conn-Date.now() is supplied by the caller. -/
def handleConnectEnd (s : AppState) (targetNodeId : String) (freshConnId : String) :
    AppState :=
  match s.connectionDraft with
  | none => s
  | some draft =>
    if draft.startNodeId == targetNodeId then
      { s with connectionDraft := none }
    else
      let fromId := draftFrom draft targetNodeId
      let toId := draftTo draft targetNodeId
      let already := s.connections.any (fun c => c.fromId == fromId && c.toId == toId)
      let s1 :=
        if already then s
        else { s with connections :=
                s.connections ++ [{ id := freshConnId, fromId := fromId, toId := toId }] }
      { s1 with connectionDraft := none }

/-- The per-node update of the resize branch of handlePointerMove. -/
def resizeApply (rid : String) (initialSize : Int × Int) (dx dy : Int)
    (n : WorkflowNode) : WorkflowNode :=
  if n.id == rid then
    { n with
      width := max 150 (initialSize.1 + dx)
      height := max 80 (initialSize.2 + dy) }
  else n

/-- The per-node update of the drag branch of handlePointerMove: nodes with an
entry in dragStartNodes are placed at their start position plus the cursor
delta; the rest are returned unchanged. -/
def dragPlacedNode (dsn : List DragStartNode) (dx dy : Int) (n : WorkflowNode) :
    WorkflowNode :=
  match dsn.find? (fun st => st.id == n.id) with
  | some st => { n with x := st.startX + dx, y := st.startY + dy }
  | none => n

/-- The axis-aligned overlap test of the marquee branch of handlePointerMove. -/
def nodeOverlapsRect (minX maxX minY maxY : Int) (n : WorkflowNode) : Bool :=
  n.x < maxX && n.x + n.width > minX && n.y < maxY && n.y + n.height > minY

/-- The list of ids of nodes intersecting the marquee rectangle spanned by the
box start point and the live cursor. -/
def intersectingIds (nodes : List WorkflowNode) (box : SelectionBox)
    (e : PointerEvent) : List String :=
  (nodes.filter (nodeOverlapsRect
      (min box.startX e.clientX) (max box.startX e.clientX)
      (min box.startY e.clientY) (max box.startY e.clientY))).map (fun n => n.id)

/-- First-occurrence deduplication, as performed by Array.from over a
JavaScript Set (a Set iterates in insertion order). -/
def dedupSeen (seen : List String) : List String → List String
  | [] => []
  | x :: xs => if seen.contains x then dedupSeen seen xs else x :: dedupSeen (x :: seen) xs

/-- Array.from applied to a Set built from the list. -/
def dedupFirst (l : List String) : List String := dedupSeen [] l

/-- handlePointerMove from src/App.tsx: mouse tracking, then the resize branch,
then the drag branch, then the marquee branch, in source order. -/
def handlePointerMove (s0 : AppState) (e : PointerEvent) : AppState :=
  let s := { s0 with mousePos := (e.clientX, e.clientY) }
  match s.resizingNodeId with
  | some rid =>
    { s with nodes := s.nodes.map (resizeApply rid s.initialNodeSize
        (e.clientX - s.resizeStartPos.1) (e.clientY - s.resizeStartPos.2)) }
  | none =>
    match s.draggingNodeId with
    | some _ =>
      { s with nodes := s.nodes.map (dragPlacedNode s.dragStartNodes
          (e.clientX - s.dragStartMousePos.1) (e.clientY - s.dragStartMousePos.2)) }
    | none =>
      match s.selectionBox with
      | some box =>
        { s with
          selectionBox := some { box with endX := e.clientX, endY := e.clientY }
          selectedNodeIds := dedupFirst (s.selectionBaseline ++ intersectingIds s.nodes box e) }
      | none => s

/-- handlePointerUp from src/App.tsx: every in-flight interaction ends. -/
def handlePointerUp (s : AppState) : AppState :=
  { s with
    draggingNodeId := none
    resizingNodeId := none
    connectionDraft := none
    selectionBox := none }

/-- handleNodesDelete from src/App.tsx. -/
def handleNodesDelete (s : AppState) (nodeIds : List String) : AppState :=
  { s with
    nodes := s.nodes.filter (fun n => !(nodeIds.contains n.id))
    connections := s.connections.filter
      (fun c => !(nodeIds.contains c.fromId) && !(nodeIds.contains c.toId))
    selectedNodeIds := s.selectedNodeIds.filter (fun id => !(nodeIds.contains id)) }

/-- handleConnectionDelete from src/App.tsx. -/
def handleConnectionDelete (s : AppState) (connId : String) : AppState :=
  { s with
    connections := s.connections.filter (fun c => !(c.id == connId))
    selectedConnectionId :=
      if s.selectedConnectionId == some connId then none else s.selectedConnectionId }

/-- addNode from src/App.tsx.  The randomised spawn position (computed from the
window size and Math.random) and the fresh id are supplied by the caller. -/
def addNode (s : AppState) (x y : Int) (freshId : String) : AppState :=
  let newNode : WorkflowNode :=
    { id := freshId, x := x, y := y, width := 256, height := 160
      title := "New Task", description := "Click to edit details..."
      status := .todo, type := .task }
  { s with
    nodes := s.nodes ++ [newNode]
    selectedNodeIds := [freshId]
    selectedConnectionId := none }

/-- CanvasMetadata from types: the lightweight index entry kept by the
storage adapter. -/
structure CanvasMetadata where
  id : String
  name : String
  lastModified : Int
deriving DecidableEq, Repr

/-- Canvas from types: the persisted document shape. -/
structure Canvas where
  id : String
  name : String
  nodes : List WorkflowNode
  connections : List Connection
  lastModified : Int
deriving DecidableEq, Repr

/-- The localStorage contents seen by storageService: one entry per canvas id
plus the metadata index. -/
structure Store where
  entries : List (String × Canvas)
  index : List CanvasMetadata
deriving DecidableEq, Repr

/-- An empty localStorage. -/
def emptyStore : Store := { entries := [], index := [] }

/-- storageService.loadCanvas from the storage adapter. -/
def storageLoadCanvas (st : Store) (id : String) : Option Canvas :=
  (st.entries.find? (fun p => p.1 == id)).map (fun p => p.2)

/-- localStorage.setItem on a canvas key: replace the entry if the key exists,
append it otherwise. -/
def upsertEntry : List (String × Canvas) → String → Canvas → List (String × Canvas)
  | [], k, v => [(k, v)]
  | p :: ps, k, v => if p.1 == k then (k, v) :: ps else p :: upsertEntry ps k v

/-- A stable sort of the metadata index by lastModified descending, matching
the comparator (a, b) => b.lastModified - a.lastModified passed to the
(specified-stable) JavaScript Array sort. -/
def insertMetaDesc (m : CanvasMetadata) : List CanvasMetadata → List CanvasMetadata
  | [] => [m]
  | x :: xs => if m.lastModified ≤ x.lastModified then x :: insertMetaDesc m xs
               else m :: x :: xs

/-- Insertion sort driving insertMetaDesc from the right, so that equal keys
keep their input order. -/
def sortMetaDesc : List CanvasMetadata → List CanvasMetadata
  | [] => []
  | x :: xs => insertMetaDesc x (sortMetaDesc xs)

/-- storageService.saveCanvas from the storage adapter: store the document,
then upsert its metadata into the index and re-sort the index by
lastModified descending.  The Date.now() timestamp is supplied by the caller. -/
def storageSaveCanvas (st : Store) (c : Canvas) (now : Int) : Store :=
  let metadata : CanvasMetadata := { id := c.id, name := c.name, lastModified := now }
  let canvases := st.index
  let newCanvases :=
    match canvases.findIdx? (fun m => m.id == c.id) with
    | some i => canvases.set i metadata
    | none => canvases ++ [metadata]
  { entries := upsertEntry st.entries c.id c
    index := sortMetaDesc newCanvases }

/-- storageService.deleteCanvas from the storage adapter. -/
def storageDeleteCanvas (st : Store) (id : String) : Store :=
  { entries := st.entries.filter (fun p => !(p.1 == id))
    index := st.index.filter (fun m => !(m.id == id)) }

/-- loadCanvas from src/App.tsx, restricted to the App state modelled here
(the sidebar list refresh and the skipSave debounce guard are rendering and
persistence-timing concerns outside the claims). -/
def appLoadCanvas (s : AppState) (st : Store) (id : String) : AppState :=
  match storageLoadCanvas st id with
  | none => s
  | some c =>
    { s with
      currentCanvasId := some c.id
      currentCanvasName := c.name
      nodes := c.nodes
      connections := c.connections
      selectedNodeIds := []
      selectedConnectionId := none }

/-- The outcome of reading and JSON-parsing the user-supplied import file:
either JSON.parse throws, or it yields an object whose nodes, connections and
name properties are each present (some) or absent/falsy (none; an empty name
string is also falsy in the source test and is modelled by the caller as
some with the empty string, handled below). -/
inductive ImportParse where
  | parseFailure
  | parsed (nodes : Option (List WorkflowNode)) (connections : Option (List Connection))
      (name : Option String)

/-- handleImportCanvas from src/App.tsx: validate that the nodes and
connections arrays are present, build a canvas under a fresh id, save it and
load it back.  The fresh id (crypto.randomUUID) and the timestamp are supplied
by the caller.  Note the endpoints of the imported connections are never
checked against the imported nodes. -/
def handleImportCanvas (s : AppState) (st : Store) (p : ImportParse)
    (newCanvasId : String) (now : Int) : AppState × Store :=
  match p with
  | .parseFailure =>
    ({ s with alerts := s.alerts ++ ["Failed to parse the file."] }, st)
  | .parsed nodes? connections? name? =>
    match nodes?, connections? with
    | some ns, some cs =>
      let importedName := match name? with
        | some nm => if nm = "" then "Imported Canvas" else nm ++ " (Imported)"
        | none => "Imported Canvas"
      let importedCanvas : Canvas :=
        { id := newCanvasId, name := importedName
          nodes := ns, connections := cs, lastModified := now }
      let st2 := storageSaveCanvas st importedCanvas now
      (appLoadCanvas s st2 newCanvasId, st2)
    | _, _ =>
      ({ s with alerts := s.alerts ++ ["Invalid canvas file format."] }, st)

/-- The raw node shape returned by the generation model, per the response
schema in the generation adapter (status and type are schema-constrained
enums; geometry is produced by the model). -/
structure RawGenNode where
  id : String
  title : String
  description : String
  status : NodeStatus
  type : NodeType
  x : Int
  y : Int
deriving DecidableEq, Repr

/-- The raw connection shape returned by the generation model. -/
structure RawGenConn where
  fromId : String
  toId : String
deriving DecidableEq, Repr

/-- The parsed JSON payload of a successful generation response. -/
structure RawGenData where
  nodes : List RawGenNode
  connections : List RawGenConn
deriving DecidableEq, Repr

/-- The observable outcome of the generateContent call: the promise rejects
(network or vendor failure), or it resolves with an optional text whose
JSON.parse outcome is given alongside (none when parsing throws). -/
inductive GenResponse where
  | netFailure
  | response (text : Option String) (parsed : Option RawGenData)

/-- generateWorkflow from the generation adapter: reject on network failure,
on an absent response text, and on unparseable JSON; otherwise map the raw
nodes to WorkflowNodes with default width 256 and height 160, and assign each
raw connection a fresh id (conn- plus a random suffix in the source, supplied
here per index by freshId). -/
def generateWorkflow (resp : GenResponse) (freshId : Nat → String) :
    Except String (List WorkflowNode × List Connection) :=
  match resp with
  | .netFailure => .error "generateContent rejected"
  | .response none _ => .error "No response from AI"
  | .response (some _) none => .error "JSON.parse threw"
  | .response (some _) (some data) =>
    .ok
      (data.nodes.map (fun n =>
        { id := n.id, x := n.x, y := n.y, width := 256, height := 160
          title := n.title, description := n.description
          status := n.status, type := n.type }),
       data.connections.enum.map (fun p =>
        { id := freshId p.1, fromId := p.2.fromId, toId := p.2.toId }))

/-- One of the whitespace characters stripped by the JavaScript trim. -/
def isWhitespaceChar (c : Char) : Bool :=
  c == ' ' || c == '\t' || c == '\n' || c == '\r'

/-- JavaScript String.prototype.trim, modelled over the character list:
strip leading and trailing whitespace. -/
def trimString (s : String) : String :=
  String.mk (((s.data.dropWhile isWhitespaceChar).reverse.dropWhile isWhitespaceChar).reverse)

/-- The four-word prompt prefix used to auto-rename the canvas:
aiPromptText.split(space).slice(0, 4).join(space) plus an ellipsis. -/
def suggestedName (prompt : String) : String :=
  String.intercalate " " ((prompt.splitOn " ").take 4) ++ "..."

/-- handleAIGenerate from src/App.tsx, with the awaited generateWorkflow
outcome determined by the supplied response: on success the node and
connection sets are replaced wholesale and the modal is closed; on any
failure an alert is recorded and nothing else changes. -/
def handleAIGenerate (s : AppState) (resp : GenResponse) (freshId : Nat → String) :
    AppState :=
  if trimString s.aiPromptText = "" then s
  else
    let s1 := { s with isAIGenerating := true }
    match generateWorkflow resp freshId with
    | .error _ =>
      { s1 with
        alerts := s1.alerts ++
          ["Failed to generate workflow. Please check your API key and try again."]
        isAIGenerating := false }
    | .ok (newNodes, newConnections) =>
      let s2 := { s1 with nodes := newNodes, connections := newConnections }
      let s3 :=
        if s2.currentCanvasName.startsWith "New Canvas"
            || s2.currentCanvasName = "Untitled Canvas" then
          { s2 with currentCanvasName := suggestedName s.aiPromptText }
        else s2
      { s3 with showAIPrompt := false, aiPromptText := "", isAIGenerating := false }

/-- The Escape branch of the global keydown handler. -/
def handleKeyEscape (s : AppState) : AppState :=
  { s with
    selectedNodeIds := []
    selectedConnectionId := none
    connectionDraft := none
    selectionBox := none }

/-- The Delete/Backspace branch of the global keydown handler: skipped while a
text control has focus; otherwise the node selection is deleted (cascading)
and then the selected connection, if any, is deleted.  handleNodesDelete
leaves selectedConnectionId untouched, so reading it from the updated state
agrees with the captured closure value in the source. -/
def handleKeyDelete (s : AppState) (isInput : Bool) : AppState :=
  if isInput then s
  else
    let s1 := if s.selectedNodeIds ≠ [] then handleNodesDelete s s.selectedNodeIds else s
    match s1.selectedConnectionId with
    | some cid => handleConnectionDelete s1 cid
    | none => s1

/-- The onSelect callback of a rendered ConnectionLine: select the connection
and clear the node selection. -/
def selectConnection (s : AppState) (connId : String) : AppState :=
  { s with selectedConnectionId := some connId, selectedNodeIds := [] }

/-- The events the application reacts to.  Pointer-downs dispatch to the
handler of the element hit (each node-level handler stops propagation, so
exactly one handler runs per event); a pointer-up over a node body fires the
onConnectEnd callback of that node and then bubbles to the canvas
handlePointerUp; a pointer-up elsewhere runs handlePointerUp alone.
Nondeterministic inputs (fresh ids, timestamps, spawn positions, the
generation response) are carried by the event. -/
inductive Event where
  | pointerDownCanvas (e : PointerEvent)
  | pointerDownNode (e : PointerEvent) (nodeId : String)
  | resizeStart (e : PointerEvent) (nodeId : String)
  | connectStart (nodeId : String) (handle : Handle)
  | pointerMove (e : PointerEvent)
  | pointerUpNode (nodeId : String) (freshConnId : String)
  | pointerUpCanvas
  | keyEscape
  | keyDelete (isInput : Bool)
  | importFile (p : ImportParse) (newCanvasId : String) (now : Int)
  | aiGenerate (resp : GenResponse) (freshId : Nat → String)
  | addNodeClick (x y : Int) (freshId : String)
  | selectConnectionClick (connId : String)

/-- The whole system: the App component state, the localStorage contents, and
whether a pointer is currently held down (a ghost flag used to express the
single-pointer discipline; the handlers never read it). -/
structure Sys where
  app : AppState
  store : Store
  pointerHeld : Bool

/-- The system at page load before any event. -/
def initialSys : Sys :=
  { app := initialState, store := emptyStore, pointerHeld := false }

/-- Dispatch one event to the handlers of src/App.tsx. -/
def applyEvent (sys : Sys) : Event → Sys
  | .pointerDownCanvas e =>
    { sys with app := handlePointerDown sys.app e none, pointerHeld := true }
  | .pointerDownNode e nodeId =>
    { sys with app := handlePointerDown sys.app e (some nodeId), pointerHeld := true }
  | .resizeStart e nodeId =>
    { sys with app := handleResizeStart sys.app e nodeId, pointerHeld := true }
  | .connectStart nodeId handle =>
    { sys with app := handleConnectStart sys.app nodeId handle, pointerHeld := true }
  | .pointerMove e =>
    { sys with app := handlePointerMove sys.app e }
  | .pointerUpNode nodeId freshConnId =>
    let app2 := handlePointerUp (handleConnectEnd sys.app nodeId freshConnId)
    { sys with app := app2, pointerHeld := false }
  | .pointerUpCanvas =>
    { sys with app := handlePointerUp sys.app, pointerHeld := false }
  | .keyEscape =>
    { sys with app := handleKeyEscape sys.app }
  | .keyDelete isInput =>
    { sys with app := handleKeyDelete sys.app isInput }
  | .importFile p newCanvasId now =>
    let r := handleImportCanvas sys.app sys.store p newCanvasId now
    { sys with app := r.1, store := r.2 }
  | .aiGenerate resp freshId =>
    { sys with app := handleAIGenerate sys.app resp freshId }
  | .addNodeClick x y freshId =>
    { sys with app := addNode sys.app x y freshId }
  | .selectConnectionClick connId =>
    { sys with app := selectConnection sys.app connId }

/-- Run a list of events from a system state. -/
def runEvents (sys : Sys) (evs : List Event) : Sys :=
  evs.foldl applyEvent sys

/-- Whether an event is one of the four interaction-starting pointer-downs. -/
def isDownEvent : Event → Bool
  | .pointerDownCanvas _ => true
  | .pointerDownNode _ _ => true
  | .resizeStart _ _ => true
  | .connectStart _ _ => true
  | _ => false

/-- The single-pointer discipline of a mouse (or of any one pointer at a
time): a pointer-down can only fire while no pointer is held. -/
def spAllowed (held : Bool) (ev : Event) : Bool :=
  if isDownEvent ev then !held else true

/-- System states reachable by event sequences obeying the single-pointer
discipline. -/
inductive SPReachable : Sys → Prop
  | init : SPReachable initialSys
  | step {sys : Sys} (ev : Event) : SPReachable sys →
      spAllowed sys.pointerHeld ev = true → SPReachable (applyEvent sys ev)

/-- The number of simultaneously active interactions among node dragging,
node resizing, connection drafting and marquee selection. -/
def activeCount (s : AppState) : Nat :=
  (if s.draggingNodeId.isSome then 1 else 0) +
  (if s.resizingNodeId.isSome then 1 else 0) +
  (if s.connectionDraft.isSome then 1 else 0) +
  (if s.selectionBox.isSome then 1 else 0)

/-- Every connection endpoint names an existing node of the canvas. -/
def connectionsValid (s : AppState) : Bool :=
  s.connections.all (fun c =>
    s.nodes.any (fun n => n.id == c.fromId) && s.nodes.any (fun n => n.id == c.toId))

/-- A generated or imported payload whose connections reference only nodes of
the same payload. -/
def payloadValid (ns : List WorkflowNode) (cs : List Connection) : Bool :=
  cs.all (fun c => ns.any (fun n => n.id == c.fromId) && ns.any (fun n => n.id == c.toId))

/-! Concrete fixtures used by counterexamples and witnesses. -/

/-- A concrete task node for counterexamples and witnesses. -/
def fixNode (id : String) (x y : Int) : WorkflowNode :=
  { id := id, x := x, y := y, width := 256, height := 160
    title := "", description := "", status := .todo, type := .task }

/-- A pointer event at the origin without modifier keys. -/
def plainClick : PointerEvent :=
  { clientX := 0, clientY := 0, shiftKey := false, ctrlKey := false, metaKey := false }

/-- A pointer event at a given point without modifier keys. -/
def plainAt (x y : Int) : PointerEvent :=
  { clientX := x, clientY := y, shiftKey := false, ctrlKey := false, metaKey := false }

/-! Claim C7: resize clamping. -/

/-- C7: while a resize interaction on node rid is active, a pointer move with
cursor displacement (dx, dy) rewrites exactly the resized node, giving it
width max 150 (initial width + dx) and height max 80 (initial height + dy), so
the result never has width below 150 or height below 80; every other node is
returned unchanged. -/
theorem resize_clamped_spec (s : AppState) (e : PointerEvent) (rid : String)
    (hres : s.resizingNodeId = some rid) :
    (handlePointerMove s e).nodes
      = s.nodes.map (resizeApply rid s.initialNodeSize
          (e.clientX - s.resizeStartPos.1) (e.clientY - s.resizeStartPos.2)) ∧
    (∀ n ∈ s.nodes, n.id ≠ rid → n ∈ (handlePointerMove s e).nodes) ∧
    (∀ n ∈ (handlePointerMove s e).nodes, n.id = rid →
      n.width = max 150 (s.initialNodeSize.1 + (e.clientX - s.resizeStartPos.1)) ∧
      n.height = max 80 (s.initialNodeSize.2 + (e.clientY - s.resizeStartPos.2)) ∧
      150 ≤ n.width ∧ 80 ≤ n.height) ∧
    (handlePointerMove s e).connections = s.connections := by
  have hmove : (handlePointerMove s e).nodes
      = s.nodes.map (resizeApply rid s.initialNodeSize
          (e.clientX - s.resizeStartPos.1) (e.clientY - s.resizeStartPos.2)) := by
    simp [handlePointerMove, hres]
  refine ⟨hmove, ?_, ?_, ?_⟩
  · intro n hn hne
    rw [hmove]
    refine List.mem_map.mpr ⟨n, hn, ?_⟩
    simp [resizeApply, hne]
  · intro n hn hid
    rw [hmove] at hn
    obtain ⟨m, hm, hfm⟩ := List.mem_map.mp hn
    by_cases hmr : m.id = rid
    · rw [← hfm]
      simp only [resizeApply, hmr, beq_self_eq_true, if_true]
      exact ⟨trivial, trivial, le_max_left _ _, le_max_left _ _⟩
    · rw [← hfm] at hid
      simp [resizeApply, hmr] at hid
  · simp [handlePointerMove, hres]

/-- Witness for C7: resizing a 256 by 160 node by a large negative delta
clamps it to 150 by 80 and leaves the other node intact. -/
theorem resize_clamped_spec_witness :
    (handlePointerMove
      { initialState with
        nodes := [fixNode "A" 0 0, fixNode "B" 300 0]
        resizingNodeId := some "A"
        resizeStartPos := (0, 0)
        initialNodeSize := (256, 160) }
      (plainAt (-1000) (-1000))).connections = [] :=
  (resize_clamped_spec _ _ "A" rfl).2.2.2

/-! Claim C8: node deletion cascades. -/

/-- C8: deleting a set of node ids removes exactly the nodes of the set,
every connection incident to the set, and every selected id of the set; no
connection with an endpoint in the set survives, no deleted id stays
selected, and nodes, connections and selected ids untouched by the set are
kept. -/
theorem nodes_delete_cascades (s : AppState) (nodeIds : List String) :
    (∀ c, c ∈ (handleNodesDelete s nodeIds).connections ↔
       c ∈ s.connections ∧ c.fromId ∉ nodeIds ∧ c.toId ∉ nodeIds) ∧
    (∀ n, n ∈ (handleNodesDelete s nodeIds).nodes ↔ n ∈ s.nodes ∧ n.id ∉ nodeIds) ∧
    (∀ i, i ∈ (handleNodesDelete s nodeIds).selectedNodeIds ↔
       i ∈ s.selectedNodeIds ∧ i ∉ nodeIds) ∧
    (∀ N ∈ nodeIds,
       (∀ c ∈ (handleNodesDelete s nodeIds).connections, c.fromId ≠ N ∧ c.toId ≠ N) ∧
       N ∉ (handleNodesDelete s nodeIds).selectedNodeIds) := by
  have hc : ∀ c, c ∈ (handleNodesDelete s nodeIds).connections ↔
      c ∈ s.connections ∧ c.fromId ∉ nodeIds ∧ c.toId ∉ nodeIds := by
    intro c
    simp [handleNodesDelete, List.mem_filter, List.elem_iff]
  have hs : ∀ i, i ∈ (handleNodesDelete s nodeIds).selectedNodeIds ↔
      i ∈ s.selectedNodeIds ∧ i ∉ nodeIds := by
    intro i
    simp [handleNodesDelete, List.mem_filter, List.elem_iff]
  refine ⟨hc, ?_, hs, ?_⟩
  · intro n
    simp [handleNodesDelete, List.mem_filter, List.elem_iff]
  · intro N hN
    constructor
    · intro c hci
      have := (hc c).mp hci
      constructor
      · intro h
        exact this.2.1 (h ▸ hN)
      · intro h
        exact this.2.2 (h ▸ hN)
    · intro hsel
      exact ((hs N).mp hsel).2 hN

/-- Witness for C8: deleting node A removes the incident connection, keeps
the untouched one, and drops A from the selection. -/
theorem nodes_delete_cascades_witness :
    ("A" ∉ (handleNodesDelete
      { initialState with
        nodes := [fixNode "A" 0 0, fixNode "B" 300 0, fixNode "C" 600 0]
        connections := [{ id := "c1", fromId := "A", toId := "B" },
                        { id := "c2", fromId := "B", toId := "C" }]
        selectedNodeIds := ["A", "C"] } ["A"]).selectedNodeIds) :=
  ((nodes_delete_cascades _ ["A"]).2.2.2 "A" (by decide)).2

/-! Claim C10: connection deletion frame. -/

/-- C10: deleting a connection id removes exactly the connections carrying
that id (a no-op on the connection list when none does), leaves the nodes and
the node selection untouched, and clears the connection selection exactly
when the deleted id was the selected one. -/
theorem connection_delete_spec (s : AppState) (connId : String) :
    (handleConnectionDelete s connId).nodes = s.nodes ∧
    (∀ c, c ∈ (handleConnectionDelete s connId).connections ↔
       c ∈ s.connections ∧ c.id ≠ connId) ∧
    ((∀ c ∈ s.connections, c.id ≠ connId) →
       (handleConnectionDelete s connId).connections = s.connections) ∧
    (handleConnectionDelete s connId).selectedConnectionId
      = (if s.selectedConnectionId = some connId then none else s.selectedConnectionId) ∧
    (handleConnectionDelete s connId).selectedNodeIds = s.selectedNodeIds := by
  refine ⟨rfl, ?_, ?_, ?_, rfl⟩
  · intro c
    simp [handleConnectionDelete, List.mem_filter]
  · intro hnone
    show List.filter _ s.connections = s.connections
    refine List.filter_eq_self.mpr ?_
    intro c hcmem
    simpa using hnone c hcmem
  · by_cases h : s.selectedConnectionId = some connId <;>
      simp [handleConnectionDelete, h]

/-- Witness for C10: deleting an id no connection carries leaves the
connection list as it was. -/
theorem connection_delete_spec_witness :
    (handleConnectionDelete
      { initialState with
        connections := [{ id := "c1", fromId := "A", toId := "B" }] } "zz").connections
      = [{ id := "c1", fromId := "A", toId := "B" }] :=
  (connection_delete_spec _ "zz").2.2.1 (by decide)

/-! Claim C5: connection-draft completion. -/

/-- Completing a draft never touches the node list. -/
lemma connect_end_nodes (s : AppState) (T fid : String) :
    (handleConnectEnd s T fid).nodes = s.nodes := by
  unfold handleConnectEnd
  cases hd : s.connectionDraft with
  | none => rfl
  | some d =>
    by_cases h1 : (d.startNodeId == T) = true
    · simp [h1]
    · simp [h1]
      split <;> rfl

/-- Completing a draft always clears it. -/
lemma connect_end_draft (s : AppState) (d : ConnectionDraft) (T fid : String)
    (hdraft : s.connectionDraft = some d) :
    (handleConnectEnd s T fid).connectionDraft = none := by
  unfold handleConnectEnd
  rw [hdraft]
  by_cases h1 : (d.startNodeId == T) = true <;> simp [h1]

/-- Releasing a draft over its own origin node discards it. -/
lemma connect_end_self (s : AppState) (d : ConnectionDraft) (T fid : String)
    (hdraft : s.connectionDraft = some d) (heq : d.startNodeId = T) :
    (handleConnectEnd s T fid).connections = s.connections := by
  unfold handleConnectEnd
  rw [hdraft]
  simp [heq]

/-- Releasing a draft whose normalized edge already exists adds nothing. -/
lemma connect_end_dup (s : AppState) (d : ConnectionDraft) (T fid : String)
    (hdraft : s.connectionDraft = some d)
    (hex : s.connections.any
      (fun c => c.fromId == draftFrom d T && c.toId == draftTo d T) = true) :
    (handleConnectEnd s T fid).connections = s.connections := by
  unfold handleConnectEnd
  rw [hdraft]
  by_cases h1 : (d.startNodeId == T) = true
  · simp [h1]
  · simp [h1, hex]

/-- Releasing a draft over a distinct node appends exactly the normalized
edge when it is not yet present. -/
lemma connect_end_adds (s : AppState) (d : ConnectionDraft) (T fid : String)
    (hdraft : s.connectionDraft = some d) (hne : d.startNodeId ≠ T)
    (hnex : s.connections.any
      (fun c => c.fromId == draftFrom d T && c.toId == draftTo d T) = false) :
    (handleConnectEnd s T fid).connections
      = s.connections ++ [{ id := fid, fromId := draftFrom d T, toId := draftTo d T }] := by
  unfold handleConnectEnd
  rw [hdraft]
  simp [hne, hnex]

/-- Starting a draft changes no connection. -/
lemma connect_start_connections (s : AppState) (nid : String) (h : Handle) :
    (handleConnectStart s nid h).connections = s.connections := by
  unfold handleConnectStart
  cases hf : s.nodes.find? (fun n => n.id == nid) <;> rfl

/-- The draft set by handleConnectStart carries the clicked node and handle. -/
lemma connect_start_draft (s : AppState) (nid : String) (h : Handle) :
    (handleConnectStart s nid h).connectionDraft = s.connectionDraft ∨
    ∃ d, (handleConnectStart s nid h).connectionDraft = some d ∧
      d.startNodeId = nid ∧ d.startHandle = h := by
  unfold handleConnectStart
  cases hf : s.nodes.find? (fun n => n.id == nid) with
  | none => exact Or.inl rfl
  | some node => exact Or.inr ⟨_, rfl, rfl, rfl⟩

/-- C5: a source-handle draft from O released over a distinct node T appends
exactly the edge O to T (a target-handle draft the reversed edge T to O)
when not already present; the release is a no-op on the connection list when
the target is the origin or the normalized edge already exists; the draft is
always cleared; redoing the same drag right after adds nothing; and a release
over empty canvas (handlePointerUp) never touches the connection list. -/
theorem connect_end_spec (s : AppState) (d : ConnectionDraft) (T fid fid2 : String)
    (hdraft : s.connectionDraft = some d) :
    (d.startHandle = .source → d.startNodeId ≠ T →
      (∀ c ∈ s.connections, ¬(c.fromId = d.startNodeId ∧ c.toId = T)) →
      (handleConnectEnd s T fid).connections
        = s.connections ++ [{ id := fid, fromId := d.startNodeId, toId := T }]) ∧
    (d.startHandle = .target → d.startNodeId ≠ T →
      (∀ c ∈ s.connections, ¬(c.fromId = T ∧ c.toId = d.startNodeId)) →
      (handleConnectEnd s T fid).connections
        = s.connections ++ [{ id := fid, fromId := T, toId := d.startNodeId }]) ∧
    (d.startNodeId = T → (handleConnectEnd s T fid).connections = s.connections) ∧
    ((∃ c ∈ s.connections, c.fromId = draftFrom d T ∧ c.toId = draftTo d T) →
      (handleConnectEnd s T fid).connections = s.connections) ∧
    (handleConnectEnd s T fid).connectionDraft = none ∧
    (handleConnectEnd
        (handleConnectStart (handleConnectEnd s T fid) d.startNodeId d.startHandle)
        T fid2).connections
      = (handleConnectEnd s T fid).connections ∧
    (handlePointerUp s).connections = s.connections ∧
    (handlePointerUp s).connectionDraft = none := by
  have hmem_any : ∀ (cs : List Connection) (f t : String),
      (cs.any (fun c => c.fromId == f && c.toId == t) = true) ↔
      (∃ c ∈ cs, c.fromId = f ∧ c.toId = t) := by
    intro cs f t
    simp [List.any_eq_true]
  refine ⟨?_, ?_, ?_, ?_, connect_end_draft s d T fid hdraft, ?_, rfl, rfl⟩
  · intro hh hne hnopair
    have hfrom : draftFrom d T = d.startNodeId := by simp [draftFrom, hh]
    have hto : draftTo d T = T := by simp [draftTo, hh]
    have hnex : s.connections.any
        (fun c => c.fromId == draftFrom d T && c.toId == draftTo d T) = false := by
      rw [Bool.eq_false_iff]
      intro hx
      obtain ⟨c, hc, h1, h2⟩ := (hmem_any _ _ _).mp hx
      exact hnopair c hc ⟨hfrom ▸ h1, hto ▸ h2⟩
    rw [connect_end_adds s d T fid hdraft hne hnex, hfrom, hto]
  · intro hh hne hnopair
    have hfrom : draftFrom d T = T := by simp [draftFrom, hh]
    have hto : draftTo d T = d.startNodeId := by simp [draftTo, hh]
    have hnex : s.connections.any
        (fun c => c.fromId == draftFrom d T && c.toId == draftTo d T) = false := by
      rw [Bool.eq_false_iff]
      intro hx
      obtain ⟨c, hc, h1, h2⟩ := (hmem_any _ _ _).mp hx
      exact hnopair c hc ⟨hfrom ▸ h1, hto ▸ h2⟩
    rw [connect_end_adds s d T fid hdraft hne hnex, hfrom, hto]
  · intro heq
    exact connect_end_self s d T fid hdraft heq
  · intro hex
    exact connect_end_dup s d T fid hdraft ((hmem_any _ _ _).mpr hex)
  · -- repeating the drag: the second release adds nothing
    set s1 := handleConnectEnd s T fid with hs1
    set s2 := handleConnectStart s1 d.startNodeId d.startHandle with hs2
    have hs2conn : s2.connections = s1.connections :=
      connect_start_connections s1 d.startNodeId d.startHandle
    rcases connect_start_draft s1 d.startNodeId d.startHandle with hnodraft | ⟨d2, hd2, hid2, hh2⟩
    · -- origin node vanished: no draft, second release is the identity
      have : s1.connectionDraft = none := connect_end_draft s d T fid hdraft
      rw [← hs2] at hnodraft
      unfold handleConnectEnd
      rw [hnodraft, this]
      exact hs2conn
    · by_cases hOT : d.startNodeId = T
      · have : (handleConnectEnd s2 T fid2).connections = s2.connections :=
          connect_end_self s2 d2 T fid2 hd2 (hid2 ▸ hOT)
        rw [this, hs2conn]
      · -- after the first release the normalized pair is present
        have hfrom2 : draftFrom d2 T = draftFrom d T := by
          unfold draftFrom
          rw [hh2, hid2]
        have hto2 : draftTo d2 T = draftTo d T := by
          unfold draftTo
          rw [hh2, hid2]
        by_cases hex : s.connections.any
            (fun c => c.fromId == draftFrom d T && c.toId == draftTo d T) = true
        · -- the pair existed before the first release: both no-ops
          have h1 : s1.connections = s.connections :=
            connect_end_dup s d T fid hdraft hex
          have h2 : (handleConnectEnd s2 T fid2).connections = s2.connections := by
            refine connect_end_dup s2 d2 T fid2 hd2 ?_
            rw [hfrom2, hto2, hs2conn, h1]
            exact hex
          rw [h2, hs2conn]
        · -- the first release added the pair, so the second finds it
          have hnex : s.connections.any
              (fun c => c.fromId == draftFrom d T && c.toId == draftTo d T) = false :=
            Bool.eq_false_iff.mpr hex
          have h1 : s1.connections = s.connections ++
              [{ id := fid, fromId := draftFrom d T, toId := draftTo d T }] :=
            connect_end_adds s d T fid hdraft hOT hnex
          have h2 : (handleConnectEnd s2 T fid2).connections = s2.connections := by
            refine connect_end_dup s2 d2 T fid2 hd2 ?_
            rw [hfrom2, hto2, hs2conn, h1]
            refine (hmem_any _ _ _).mpr ?_
            refine ⟨{ id := fid, fromId := draftFrom d T, toId := draftTo d T }, ?_, rfl, rfl⟩
            simp
          rw [h2, hs2conn]

/-- Witness for C5: a source draft from A released over B yields exactly the
edge A to B. -/
theorem connect_end_spec_witness :
    (handleConnectEnd
      { initialState with
        nodes := [fixNode "A" 0 0, fixNode "B" 300 0]
        connectionDraft := some
          { startNodeId := "A", startHandle := .source, startX := 256, startY := 80 } }
      "B" "c1").connections
      = [{ id := "c1", fromId := "A", toId := "B" }] :=
  (connect_end_spec _
    { startNodeId := "A", startHandle := .source, startX := 256, startY := 80 }
    "B" "c1" "c2" rfl).1 rfl (by decide) (by decide)

/-! Claim C9: generation failure leaves the diagram untouched. -/

/-- On a successful generation the node and connection sets are replaced by
the generated ones. -/
lemma ai_generate_ok_fields (s : AppState) (resp : GenResponse) (freshId : Nat → String)
    (ns : List WorkflowNode) (cs : List Connection)
    (hprompt : ¬(trimString s.aiPromptText = ""))
    (hok : generateWorkflow resp freshId = .ok (ns, cs)) :
    (handleAIGenerate s resp freshId).nodes = ns ∧
    (handleAIGenerate s resp freshId).connections = cs := by
  unfold handleAIGenerate
  rw [if_neg hprompt, hok]
  by_cases hname : (s.currentCanvasName.startsWith "New Canvas"
      || s.currentCanvasName = "Untitled Canvas") = true <;>
    simp [hname]

/-- C9: when the generation call fails (rejected promise, missing response
text, or unparseable content), handleAIGenerate reports the failure through
an alert and changes nothing else, in particular the node and connection
sets; the sets are replaced exactly on success. -/
theorem ai_generate_failure_frame (s : AppState) (resp : GenResponse)
    (freshId : Nat → String) (hprompt : ¬(trimString s.aiPromptText = "")) :
    (∀ err, generateWorkflow resp freshId = .error err →
      handleAIGenerate s resp freshId =
        { s with
          alerts := s.alerts ++
            ["Failed to generate workflow. Please check your API key and try again."]
          isAIGenerating := false }) ∧
    (∀ ns cs, generateWorkflow resp freshId = .ok (ns, cs) →
      (handleAIGenerate s resp freshId).nodes = ns ∧
      (handleAIGenerate s resp freshId).connections = cs) := by
  constructor
  · intro err herr
    unfold handleAIGenerate
    rw [if_neg hprompt, herr]
  · intro ns cs hok
    exact ai_generate_ok_fields s resp freshId ns cs hprompt hok

/-- Witness for C9: a rejected generation call on a non-empty prompt leaves
the canvas content of an example state untouched and appends the alert. -/
theorem ai_generate_failure_frame_witness :
    handleAIGenerate
      { initialState with
        aiPromptText := "deploy pipeline"
        nodes := [fixNode "A" 0 0]
        connections := [{ id := "c1", fromId := "A", toId := "A" }] }
      .netFailure (fun _ => "x") =
    { initialState with
      aiPromptText := "deploy pipeline"
      nodes := [fixNode "A" 0 0]
      connections := [{ id := "c1", fromId := "A", toId := "A" }]
      alerts := ["Failed to generate workflow. Please check your API key and try again."]
      isAIGenerating := false } :=
  (ai_generate_failure_frame _ .netFailure (fun _ => "x") (by decide)).1
    "generateContent rejected" rfl

/-! Claim C3: pointer-down selection rules. -/

/-- A canvas state with two nodes both selected, used to refute the claim
that a plain click always replaces the selection. -/
def c3State : AppState :=
  { initialState with
    nodes := [fixNode "A" 0 0, fixNode "B" 300 0]
    selectedNodeIds := ["A", "B"] }

/-- C3 counterexample: a plain pointer-down on the already-selected node A of
the multi-selection [A, B] keeps the whole selection instead of replacing it
with exactly [A]. -/
theorem plain_click_keeps_multiselection :
    (handlePointerDown c3State plainClick (some "A")).selectedNodeIds = ["A", "B"] ∧
    (handlePointerDown c3State plainClick (some "A")).selectedNodeIds ≠ ["A"] := by
  constructor
  · rfl
  · decide

/-- C3 amended: a plain pointer-down on a node not yet selected replaces the
selection with exactly that node, and on an already-selected node keeps the
selection (so that the whole multi-selection can be dragged); with a modifier
the node is appended if absent and removed if present. -/
theorem pointer_down_selection_rules (s : AppState) (e : PointerEvent) (nid : String)
    (hfound : (s.nodes.find? (fun n => n.id == nid)).isSome = true) :
    (modifierHeld e = false → nid ∉ s.selectedNodeIds →
      (handlePointerDown s e (some nid)).selectedNodeIds = [nid]) ∧
    (modifierHeld e = false → nid ∈ s.selectedNodeIds →
      (handlePointerDown s e (some nid)).selectedNodeIds = s.selectedNodeIds) ∧
    (modifierHeld e = true → nid ∉ s.selectedNodeIds →
      (handlePointerDown s e (some nid)).selectedNodeIds = s.selectedNodeIds ++ [nid]) ∧
    (modifierHeld e = true → nid ∈ s.selectedNodeIds →
      ∀ i, i ∈ (handlePointerDown s e (some nid)).selectedNodeIds ↔
        (i ∈ s.selectedNodeIds ∧ i ≠ nid)) := by
  obtain ⟨m, hm⟩ := Option.isSome_iff_exists.mp hfound
  refine ⟨?_, ?_, ?_, ?_⟩
  · intro hmod hmem
    simp [handlePointerDown, hm, hmod, hmem, beginDrag]
  · intro hmod hmem
    simp [handlePointerDown, hm, hmod, hmem, beginDrag]
  · intro hmod hmem
    simp [handlePointerDown, hm, hmod, hmem, beginDrag]
  · intro hmod hmem i
    simp [handlePointerDown, hm, hmod, hmem, List.mem_filter]

/-- Witness for C3 amended: a plain click on the unselected node A selects
exactly A. -/
theorem pointer_down_selection_rules_witness :
    (handlePointerDown { initialState with nodes := [fixNode "A" 0 0] }
      plainClick (some "A")).selectedNodeIds = ["A"] :=
  (pointer_down_selection_rules _ plainClick "A" (by decide)).1 rfl (by decide)

/-! Claim C4: marquee selection. -/

/-- Membership in the first-occurrence deduplication. -/
lemma mem_dedupSeen (l : List String) (seen : List String) (a : String) :
    a ∈ dedupSeen seen l ↔ (a ∈ l ∧ a ∉ seen) := by
  induction l generalizing seen with
  | nil => simp [dedupSeen]
  | cons x xs ih =>
    by_cases hx : x ∈ seen
    · have hc : seen.contains x = true := List.elem_iff.mpr hx
      simp only [dedupSeen, hc, if_true, ih, List.mem_cons]
      constructor
      · rintro ⟨h1, h2⟩
        exact ⟨Or.inr h1, h2⟩
      · rintro ⟨h1 | h1, h2⟩
        · exact absurd (h1 ▸ hx) h2
        · exact ⟨h1, h2⟩
    · have hc : seen.contains x = false := by
        rw [Bool.eq_false_iff]
        intro h
        exact hx (List.elem_iff.mp h)
      simp only [dedupSeen, hc, Bool.false_eq_true, if_false, List.mem_cons, ih]
      by_cases hax : a = x
      · simp [hax, hx]
      · simp [hax]

/-- The first-occurrence deduplication never produces duplicates. -/
lemma nodup_dedupSeen (l : List String) (seen : List String) :
    (dedupSeen seen l).Nodup := by
  induction l generalizing seen with
  | nil => simp [dedupSeen]
  | cons x xs ih =>
    by_cases hc : seen.contains x = true
    · simp only [dedupSeen, hc, if_true]
      exact ih seen
    · have hc' : seen.contains x = false := Bool.eq_false_iff.mpr hc
      simp only [dedupSeen, hc', Bool.false_eq_true, if_false]
      refine List.nodup_cons.mpr ⟨?_, ih (x :: seen)⟩
      intro hmem
      exact ((mem_dedupSeen xs (x :: seen) x).mp hmem).2 (List.mem_cons_self x seen)

/-- C4: a pointer move taken in marquee mode sets the selection to the
deduplicated union of the baseline with the ids of the nodes whose bounding
box overlaps the rectangle spanned by the marquee start point and the cursor
(the literal overlap test of the source); the result is duplicate-free,
membership is exactly baseline-or-overlap, and repeating the same move on the
resulting state returns the same selection. -/
theorem marquee_selection_spec (s : AppState) (e : PointerEvent) (box : SelectionBox)
    (hr : s.resizingNodeId = none) (hd : s.draggingNodeId = none)
    (hb : s.selectionBox = some box) :
    (handlePointerMove s e).selectedNodeIds
      = dedupFirst (s.selectionBaseline ++ intersectingIds s.nodes box e) ∧
    (∀ i, i ∈ (handlePointerMove s e).selectedNodeIds ↔
      i ∈ s.selectionBaseline ∨ i ∈ intersectingIds s.nodes box e) ∧
    (∀ i, i ∈ intersectingIds s.nodes box e ↔ ∃ n ∈ s.nodes, n.id = i ∧
      nodeOverlapsRect (min box.startX e.clientX) (max box.startX e.clientX)
        (min box.startY e.clientY) (max box.startY e.clientY) n = true) ∧
    ((handlePointerMove s e).selectedNodeIds).Nodup ∧
    (handlePointerMove (handlePointerMove s e) e).selectedNodeIds
      = (handlePointerMove s e).selectedNodeIds := by
  have h1 : handlePointerMove s e =
      { s with
        mousePos := (e.clientX, e.clientY)
        selectionBox := some { box with endX := e.clientX, endY := e.clientY }
        selectedNodeIds :=
          dedupFirst (s.selectionBaseline ++ intersectingIds s.nodes box e) } := by
    simp [handlePointerMove, hr, hd, hb]
  refine ⟨by rw [h1], ?_, ?_, ?_, ?_⟩
  · intro i
    rw [h1]
    simp [dedupFirst, mem_dedupSeen, List.mem_append]
  · intro i
    simp only [intersectingIds, List.mem_map, List.mem_filter]
    constructor
    · rintro ⟨n, ⟨hn, ho⟩, hid⟩
      exact ⟨n, hn, hid, ho⟩
    · rintro ⟨n, hn, hid, ho⟩
      exact ⟨n, ⟨hn, ho⟩, hid⟩
  · rw [h1]
    exact nodup_dedupSeen _ _
  · conv_lhs => rw [h1]
    rw [h1]
    simp [handlePointerMove, hr, hd, intersectingIds]

/-- The marquee fixture: two nodes, node B already selected as baseline, a
marquee started at (-10, -10). -/
def marqueeFixture : AppState :=
  { initialState with
    nodes := [fixNode "A" 0 0, fixNode "B" 300 0]
    selectionBaseline := ["B"]
    selectionBox := some { startX := -10, startY := -10, endX := -10, endY := -10 } }

/-- Witness for C4: dragging the marquee to (50, 50) selects the union of
the baseline [B] with the overlapped node A. -/
theorem marquee_selection_spec_witness :
    (handlePointerMove marqueeFixture (plainAt 50 50)).selectedNodeIds
      = dedupFirst (marqueeFixture.selectionBaseline ++
          intersectingIds marqueeFixture.nodes
            { startX := -10, startY := -10, endX := -10, endY := -10 } (plainAt 50 50)) :=
  (marquee_selection_spec marqueeFixture (plainAt 50 50)
    { startX := -10, startY := -10, endX := -10, endY := -10 } rfl rfl rfl).1

/-! Claim C6: drag displacement. -/

/-- Re-placing a node that was already placed from the drag-start snapshots
overwrites the earlier placement: only the last cursor delta matters. -/
lemma dragPlaced_overwrite (dsn : List DragStartNode) (dx dy dx0 dy0 : Int)
    (n : WorkflowNode) :
    dragPlacedNode dsn dx dy (dragPlacedNode dsn dx0 dy0 n)
      = dragPlacedNode dsn dx dy n := by
  unfold dragPlacedNode
  cases h : dsn.find? (fun st => st.id == n.id) with
  | none => simp [h]
  | some st => simp [h]

/-- A pointer move taken while dragging re-places every node from the
drag-start snapshots at the absolute cursor delta and changes nothing else
but the tracked mouse position. -/
lemma drag_move_eq (s : AppState) (e : PointerEvent) (did : String)
    (hr : s.resizingNodeId = none) (hd : s.draggingNodeId = some did) :
    handlePointerMove s e =
      { s with
        mousePos := (e.clientX, e.clientY)
        nodes := s.nodes.map (dragPlacedNode s.dragStartNodes
          (e.clientX - s.dragStartMousePos.1) (e.clientY - s.dragStartMousePos.2)) } := by
  simp [handlePointerMove, hr, hd]

/-- Any chain of pointer moves during one drag ends with every node placed at
its drag-start position plus the delta of the final move alone. -/
lemma drag_fold_nodes (es : List PointerEvent) (e : PointerEvent) (s : AppState)
    (did : String) (hr : s.resizingNodeId = none) (hd : s.draggingNodeId = some did) :
    ((es ++ [e]).foldl handlePointerMove s).nodes
      = s.nodes.map (dragPlacedNode s.dragStartNodes
          (e.clientX - s.dragStartMousePos.1) (e.clientY - s.dragStartMousePos.2)) := by
  induction es generalizing s with
  | nil =>
    simp only [List.nil_append, List.foldl_cons, List.foldl_nil]
    rw [drag_move_eq s e did hr hd]
  | cons e0 es ih =>
    rw [List.cons_append, List.foldl_cons]
    have hr2 : (handlePointerMove s e0).resizingNodeId = none := by
      rw [drag_move_eq s e0 did hr hd]
      exact hr
    have hd2 : (handlePointerMove s e0).draggingNodeId = some did := by
      rw [drag_move_eq s e0 did hr hd]
      exact hd
    rw [ih (handlePointerMove s e0) hr2 hd2, drag_move_eq s e0 did hr hd]
    dsimp only
    simp only [List.map_map]
    refine List.map_congr_left ?_
    intro n _
    exact dragPlaced_overwrite _ _ _ _ _ n

/-- C6: for a drag with any finite chain of intermediate moves whose last
cursor position is the drag-start mouse position plus (dx, dy), every node of
the drag-start snapshot ends at its snapshot position plus exactly (dx, dy),
and every node without a snapshot entry is unchanged. -/
theorem drag_displacement_exact (s : AppState) (did : String) (es : List PointerEvent)
    (e : PointerEvent) (dx dy : Int)
    (hr : s.resizingNodeId = none) (hd : s.draggingNodeId = some did)
    (hx : e.clientX = s.dragStartMousePos.1 + dx)
    (hy : e.clientY = s.dragStartMousePos.2 + dy) :
    ((es ++ [e]).foldl handlePointerMove s).nodes
      = s.nodes.map (dragPlacedNode s.dragStartNodes dx dy) ∧
    (∀ n ∈ s.nodes, s.dragStartNodes.find? (fun st => st.id == n.id) = none →
      n ∈ ((es ++ [e]).foldl handlePointerMove s).nodes) ∧
    (∀ n ∈ s.nodes, ∀ st, s.dragStartNodes.find? (fun st => st.id == n.id) = some st →
      ({ n with x := st.startX + dx, y := st.startY + dy } : WorkflowNode)
        ∈ ((es ++ [e]).foldl handlePointerMove s).nodes) := by
  have hfold := drag_fold_nodes es e s did hr hd
  have hdx : e.clientX - s.dragStartMousePos.1 = dx := by omega
  have hdy : e.clientY - s.dragStartMousePos.2 = dy := by omega
  rw [hdx, hdy] at hfold
  refine ⟨hfold, ?_, ?_⟩
  · intro n hn hnone
    rw [hfold]
    exact List.mem_map.mpr ⟨n, hn, by simp [dragPlacedNode, hnone]⟩
  · intro n hn st hst
    rw [hfold]
    exact List.mem_map.mpr ⟨n, hn, by simp [dragPlacedNode, hst]⟩

/-- The drag fixture of the spec scenario: nodes A and B marquee-selected,
then a pointer-down on A at (100, 100) begins the group drag. -/
def dragFixture : AppState :=
  handlePointerDown
    { initialState with
      nodes := [fixNode "A" 0 0, fixNode "B" 300 0, fixNode "C" 600 0]
      selectedNodeIds := ["A", "B"] }
    (plainAt 100 100) (some "A")

/-- Witness for C6: dragging the selection by (50, 20) through an
intermediate move leaves the unselected node C exactly where it was. -/
theorem drag_displacement_exact_witness :
    fixNode "C" 600 0 ∈
      (([plainAt 110 90] ++ [plainAt 150 120]).foldl handlePointerMove dragFixture).nodes :=
  (drag_displacement_exact dragFixture "A" [plainAt 110 90] (plainAt 150 120) 50 20
      (by decide) (by decide) (by decide) (by decide)).2.1
    (fixNode "C" 600 0) (by decide) (by decide)

/-! Claim C1: the connection-endpoint invariant. -/

/-- An import event carrying a connection whose endpoints name no imported
node; the source accepts it because it only checks that the two arrays are
present. -/
def danglingImportEvent : Event :=
  .importFile (.parsed (some [])
    (some [{ id := "c1", fromId := "a", toId := "b" }]) none) "doc1" 0

/-- C1 counterexample: importing a document whose connection list references
absent nodes reaches, through the import operation alone, a canvas state in
which a connection endpoint names no existing node. -/
theorem import_breaks_connection_invariant :
    connectionsValid (runEvents initialSys [danglingImportEvent]).app = false ∧
    (runEvents initialSys [danglingImportEvent]).app.connections ≠ [] := by
  constructor
  · decide
  · decide

/-- setItem followed by a lookup under the written key returns the written
canvas. -/
lemma find_upsertEntry (es : List (String × Canvas)) (k : String) (v : Canvas) :
    (upsertEntry es k v).find? (fun p => p.1 == k) = some (k, v) := by
  induction es with
  | nil => simp [upsertEntry]
  | cons p ps ih =>
    by_cases h : (p.1 == k) = true
    · simp [upsertEntry, h]
    · simp [upsertEntry, h, List.find?, ih]

/-- Loading a canvas right after saving it returns exactly the saved canvas:
this is the save-then-load round trip handleImportCanvas performs. -/
lemma storageLoad_save (st : Store) (c : Canvas) (now : Int) :
    storageLoadCanvas (storageSaveCanvas st c now) c.id = some c := by
  unfold storageLoadCanvas storageSaveCanvas
  simp [find_upsertEntry]

/-- A validated import installs exactly the supplied node and connection
lists as the canvas content. -/
lemma import_parsed_fields (s : AppState) (st : Store) (ns : List WorkflowNode)
    (cs : List Connection) (nm : Option String) (newId : String) (now : Int) :
    (handleImportCanvas s st (.parsed (some ns) (some cs) nm) newId now).1.nodes = ns ∧
    (handleImportCanvas s st (.parsed (some ns) (some cs) nm) newId now).1.connections
      = cs := by
  unfold handleImportCanvas appLoadCanvas
  have hload := storageLoad_save st
    { id := newId
      name := match nm with
        | some x => if x = "" then "Imported Canvas" else x ++ " (Imported)"
        | none => "Imported Canvas"
      nodes := ns, connections := cs, lastModified := now } now
  dsimp only
  rw [hload]
  exact ⟨rfl, rfl⟩

/-- The propositional reading of connectionsValid. -/
lemma connectionsValid_iff (s : AppState) :
    connectionsValid s = true ↔
    ∀ c ∈ s.connections,
      (∃ n ∈ s.nodes, n.id = c.fromId) ∧ (∃ n ∈ s.nodes, n.id = c.toId) := by
  simp [connectionsValid, List.all_eq_true, List.any_eq_true]

/-- C1 amended: node deletion always preserves the endpoint invariant;
completing a connection draft preserves it whenever the draft origin and the
release target still exist in the canvas; import and AI generation install
the supplied sets verbatim, so they establish the invariant exactly when the
supplied payload is self-consistent. -/
theorem connection_invariant_preservation (s : AppState) (nodeIds : List String)
    (d : ConnectionDraft) (T fid : String) (st : Store)
    (ns : List WorkflowNode) (cs : List Connection) (nm : Option String)
    (newId : String) (now : Int) (resp : GenResponse) (freshId : Nat → String) :
    (connectionsValid s = true →
      connectionsValid (handleNodesDelete s nodeIds) = true) ∧
    (connectionsValid s = true → s.connectionDraft = some d →
      (∃ n ∈ s.nodes, n.id = d.startNodeId) → (∃ n ∈ s.nodes, n.id = T) →
      connectionsValid (handleConnectEnd s T fid) = true) ∧
    (payloadValid ns cs = true →
      connectionsValid
        (handleImportCanvas s st (.parsed (some ns) (some cs) nm) newId now).1 = true) ∧
    (¬(trimString s.aiPromptText = "") →
      generateWorkflow resp freshId = .ok (ns, cs) → payloadValid ns cs = true →
      connectionsValid (handleAIGenerate s resp freshId) = true) := by
  refine ⟨?_, ?_, ?_, ?_⟩
  · intro hv
    rw [connectionsValid_iff] at hv ⊢
    intro c hc
    rw [handleNodesDelete, List.mem_filter] at hc
    obtain ⟨hcmem, hckeep⟩ := hc
    simp at hckeep
    obtain ⟨⟨nf, hnf, hnfid⟩, ⟨nt, hnt, hntid⟩⟩ := hv c hcmem
    constructor
    · refine ⟨nf, ?_, hnfid⟩
      rw [handleNodesDelete, List.mem_filter]
      refine ⟨hnf, ?_⟩
      simp [hnfid]
      exact hckeep.1
    · refine ⟨nt, ?_, hntid⟩
      rw [handleNodesDelete, List.mem_filter]
      refine ⟨hnt, ?_⟩
      simp [hntid]
      exact hckeep.2
  · intro hv hdraft horigin htarget
    have hnodes : (handleConnectEnd s T fid).nodes = s.nodes :=
      connect_end_nodes s T fid
    rw [connectionsValid_iff] at hv ⊢
    rw [hnodes]
    by_cases hOT : d.startNodeId = T
    · rw [connect_end_self s d T fid hdraft hOT]
      exact hv
    · by_cases hex : s.connections.any
          (fun c => c.fromId == draftFrom d T && c.toId == draftTo d T) = true
      · rw [connect_end_dup s d T fid hdraft hex]
        exact hv
      · rw [connect_end_adds s d T fid hdraft hOT (Bool.eq_false_iff.mpr hex)]
        intro c hc
        rw [List.mem_append] at hc
        rcases hc with hc | hc
        · exact hv c hc
        · rw [List.mem_singleton] at hc
          subst hc
          constructor
          · cases hh : d.startHandle <;> simp only [draftFrom, hh]
            · exact horigin
            · exact htarget
          · cases hh : d.startHandle <;> simp only [draftTo, hh]
            · exact htarget
            · exact horigin
  · intro hpv
    obtain ⟨h1, h2⟩ := import_parsed_fields s st ns cs nm newId now
    unfold connectionsValid
    rw [h1, h2]
    exact hpv
  · intro hprompt hok hpv
    obtain ⟨h1, h2⟩ := ai_generate_ok_fields s resp freshId ns cs hprompt hok
    unfold connectionsValid
    rw [h1, h2]
    exact hpv

/-- Witness for C1 amended: deleting node A from a valid two-node canvas
with one connection leaves the invariant intact. -/
theorem connection_invariant_preservation_witness :
    connectionsValid (handleNodesDelete
      { initialState with
        nodes := [fixNode "A" 0 0, fixNode "B" 300 0]
        connections := [{ id := "c1", fromId := "A", toId := "B" }] } ["A"]) = true :=
  (connection_invariant_preservation _ ["A"]
      { startNodeId := "A", startHandle := .source, startX := 0, startY := 0 }
      "B" "f" emptyStore [] [] none "n" 0 .netFailure (fun _ => "x")).1 (by decide)

/-! Claim C2: mutual exclusion of interactions. -/

/-- The event trace refuting the pointer-down guard: two nodes are imported,
a connection draft is started from the source handle of A by one pointer, and
a second pointer comes down on the body of B while the draft is still live. -/
def twoPointerTrace : List Event :=
  [.importFile (.parsed (some [fixNode "A" 0 0, fixNode "B" 300 0]) (some []) none)
     "doc1" 0,
   .connectStart "A" .source,
   .pointerDownNode plainClick "B"]

/-- C2 counterexample: none of the pointer-down handlers checks whether
another interaction is active, so a pointer-down on a node taken while a
connection draft is live (as delivered by a second touch pointer) leaves
both the draft and a node drag active at once. -/
theorem pointer_down_during_draft_two_active :
    (runEvents initialSys twoPointerTrace).app.connectionDraft.isSome = true ∧
    (runEvents initialSys twoPointerTrace).app.draggingNodeId.isSome = true ∧
    activeCount (runEvents initialSys twoPointerTrace).app = 2 := by
  refine ⟨?_, ?_, ?_⟩ <;> decide

/-- Zero active interactions means all four interaction fields are clear. -/
lemma activeCount_eq_zero (s : AppState) :
    activeCount s = 0 ↔
      s.draggingNodeId = none ∧ s.resizingNodeId = none ∧
      s.connectionDraft = none ∧ s.selectionBox = none := by
  unfold activeCount
  cases s.draggingNodeId <;> cases s.resizingNodeId <;>
    cases s.connectionDraft <;> cases s.selectionBox <;> simp

/-- A pointer move never changes which interactions are active. -/
lemma activeCount_move (s : AppState) (e : PointerEvent) :
    activeCount (handlePointerMove s e) = activeCount s := by
  cases hr : s.resizingNodeId with
  | some rid => simp [handlePointerMove, activeCount, hr]
  | none =>
    cases hd : s.draggingNodeId with
    | some did => simp [handlePointerMove, activeCount, hr, hd]
    | none =>
      cases hb : s.selectionBox with
      | some box => simp [handlePointerMove, activeCount, hr, hd, hb]
      | none => simp [handlePointerMove, activeCount, hr, hd, hb]

/-- A pointer up ends every interaction. -/
lemma activeCount_up (s : AppState) : activeCount (handlePointerUp s) = 0 := by
  simp [handlePointerUp, activeCount]

/-- Escape only clears interactions, never starts one. -/
lemma activeCount_escape (s : AppState) :
    activeCount (handleKeyEscape s) ≤ activeCount s := by
  unfold activeCount handleKeyEscape
  dsimp only
  simp only [Option.isSome_none, Bool.false_eq_true, if_false]
  omega

/-- The Delete key touches canvas content and selections only. -/
lemma activeCount_keyDelete (s : AppState) (b : Bool) :
    activeCount (handleKeyDelete s b) = activeCount s := by
  unfold handleKeyDelete
  split
  · rfl
  · dsimp only
    split <;> (split <;> rfl)

/-- Loading a document never touches the interaction fields. -/
lemma activeCount_load (s : AppState) (st : Store) (id : String) :
    activeCount (appLoadCanvas s st id) = activeCount s := by
  unfold appLoadCanvas
  cases hload : storageLoadCanvas st id with
  | none => rfl
  | some c => rfl

/-- Import never touches the interaction fields. -/
lemma activeCount_import (s : AppState) (st : Store) (p : ImportParse)
    (newId : String) (now : Int) :
    activeCount (handleImportCanvas s st p newId now).1 = activeCount s := by
  cases p with
  | parseFailure => rfl
  | parsed ns cs nm =>
    cases ns with
    | none => cases cs <;> rfl
    | some ns =>
      cases cs with
      | none => rfl
      | some cs => exact activeCount_load s _ newId

/-- Generation never touches the interaction fields. -/
lemma activeCount_ai (s : AppState) (resp : GenResponse) (freshId : Nat → String) :
    activeCount (handleAIGenerate s resp freshId) = activeCount s := by
  unfold handleAIGenerate
  by_cases hp : trimString s.aiPromptText = ""
  · rw [if_pos hp]
  · rw [if_neg hp]
    cases hg : generateWorkflow resp freshId with
    | error e => rfl
    | ok pair =>
      obtain ⟨ns, cs⟩ := pair
      dsimp only
      split <;> rfl

/-- A canvas-background pointer-down taken with no interaction active starts
exactly the marquee. -/
lemma down_canvas_one (s : AppState) (e : PointerEvent) (h0 : activeCount s = 0) :
    activeCount (handlePointerDown s e none) ≤ 1 := by
  obtain ⟨h1, h2, h3, h4⟩ := (activeCount_eq_zero s).mp h0
  by_cases hmod : modifierHeld e = true <;>
    simp [handlePointerDown, activeCount, h1, h2, h3, hmod]

/-- A node pointer-down taken with no interaction active starts at most the
drag. -/
lemma down_node_one (s : AppState) (e : PointerEvent) (nid : String)
    (h0 : activeCount s = 0) :
    activeCount (handlePointerDown s e (some nid)) ≤ 1 := by
  obtain ⟨h1, h2, h3, h4⟩ := (activeCount_eq_zero s).mp h0
  unfold handlePointerDown
  dsimp only
  cases hf : s.nodes.find? (fun n => n.id == nid) with
  | none =>
    show activeCount s ≤ 1
    omega
  | some m =>
    dsimp only
    by_cases hmem : nid ∈ s.selectedNodeIds
    · by_cases hmod : modifierHeld e = true <;>
        simp [hmem, hmod, beginDrag, activeCount, h1, h2, h3, h4]
    · simp [hmem, beginDrag, activeCount, h1, h2, h3, h4]

/-- A resize-handle pointer-down taken with no interaction active starts at
most the resize. -/
lemma resize_start_one (s : AppState) (e : PointerEvent) (nid : String)
    (h0 : activeCount s = 0) :
    activeCount (handleResizeStart s e nid) ≤ 1 := by
  obtain ⟨h1, h2, h3, h4⟩ := (activeCount_eq_zero s).mp h0
  unfold handleResizeStart
  cases hf : s.nodes.find? (fun n => n.id == nid) with
  | none =>
    show activeCount s ≤ 1
    omega
  | some m => simp [activeCount, h1, h3, h4]

/-- A connection-handle pointer-down taken with no interaction active starts
at most the draft. -/
lemma connect_start_one (s : AppState) (nid : String) (h : Handle)
    (h0 : activeCount s = 0) :
    activeCount (handleConnectStart s nid h) ≤ 1 := by
  obtain ⟨h1, h2, h3, h4⟩ := (activeCount_eq_zero s).mp h0
  unfold handleConnectStart
  cases hf : s.nodes.find? (fun n => n.id == nid) with
  | none =>
    show activeCount s ≤ 1
    omega
  | some m => simp [activeCount, h1, h2, h4]

/-- C2 amended: along any event sequence obeying the single-pointer
discipline (a pointer-down only fires while no pointer is held, as with a
mouse), at most one of dragging, resizing, connection drafting and marquee
selection is ever active, and none is active while the pointer is up. -/
theorem single_pointer_mutual_exclusion (sys : Sys) (hreach : SPReachable sys) :
    activeCount sys.app ≤ 1 ∧
    (sys.pointerHeld = false → activeCount sys.app = 0) := by
  induction hreach with
  | init =>
    constructor
    · decide
    · intro
      decide
  | @step sys ev hreach hok ih =>
    obtain ⟨ih1, ih2⟩ := ih
    cases ev with
    | pointerDownCanvas e =>
      simp only [spAllowed, isDownEvent, if_true, Bool.not_eq_true'] at hok
      have h0 : activeCount sys.app = 0 := ih2 hok
      exact ⟨down_canvas_one sys.app e h0, by intro h; simp [applyEvent] at h⟩
    | pointerDownNode e nid =>
      simp only [spAllowed, isDownEvent, if_true, Bool.not_eq_true'] at hok
      have h0 : activeCount sys.app = 0 := ih2 hok
      exact ⟨down_node_one sys.app e nid h0, by intro h; simp [applyEvent] at h⟩
    | resizeStart e nid =>
      simp only [spAllowed, isDownEvent, if_true, Bool.not_eq_true'] at hok
      have h0 : activeCount sys.app = 0 := ih2 hok
      exact ⟨resize_start_one sys.app e nid h0, by intro h; simp [applyEvent] at h⟩
    | connectStart nid h =>
      simp only [spAllowed, isDownEvent, if_true, Bool.not_eq_true'] at hok
      have h0 : activeCount sys.app = 0 := ih2 hok
      exact ⟨connect_start_one sys.app nid h h0, by intro h; simp [applyEvent] at h⟩
    | pointerMove e =>
      refine ⟨?_, ?_⟩
      · show activeCount (handlePointerMove sys.app e) ≤ 1
        rw [activeCount_move]
        exact ih1
      · intro hheld
        show activeCount (handlePointerMove sys.app e) = 0
        rw [activeCount_move]
        exact ih2 hheld
    | pointerUpNode nid fid =>
      refine ⟨?_, fun _ => ?_⟩ <;>
        simp [applyEvent, activeCount_up]
    | pointerUpCanvas =>
      refine ⟨?_, fun _ => ?_⟩ <;>
        simp [applyEvent, activeCount_up]
    | keyEscape =>
      refine ⟨?_, ?_⟩
      · exact le_trans (activeCount_escape sys.app) ih1
      · intro hheld
        show activeCount (handleKeyEscape sys.app) = 0
        have := activeCount_escape sys.app
        have h0 := ih2 hheld
        omega
    | keyDelete b =>
      refine ⟨?_, ?_⟩
      · show activeCount (handleKeyDelete sys.app b) ≤ 1
        rw [activeCount_keyDelete]
        exact ih1
      · intro hheld
        show activeCount (handleKeyDelete sys.app b) = 0
        rw [activeCount_keyDelete]
        exact ih2 hheld
    | importFile p newId now =>
      refine ⟨?_, ?_⟩
      · show activeCount (handleImportCanvas sys.app sys.store p newId now).1 ≤ 1
        rw [activeCount_import]
        exact ih1
      · intro hheld
        show activeCount (handleImportCanvas sys.app sys.store p newId now).1 = 0
        rw [activeCount_import]
        exact ih2 hheld
    | aiGenerate resp freshId =>
      refine ⟨?_, ?_⟩
      · show activeCount (handleAIGenerate sys.app resp freshId) ≤ 1
        rw [activeCount_ai]
        exact ih1
      · intro hheld
        show activeCount (handleAIGenerate sys.app resp freshId) = 0
        rw [activeCount_ai]
        exact ih2 hheld
    | addNodeClick x y freshId =>
      exact ⟨ih1, ih2⟩
    | selectConnectionClick connId =>
      exact ⟨ih1, ih2⟩

/-- Witness for C2 amended: the state after one legitimate canvas
pointer-down is reachable under the single-pointer discipline and has at
most one active interaction. -/
theorem single_pointer_mutual_exclusion_witness :
    activeCount (applyEvent initialSys (.pointerDownCanvas plainClick)).app ≤ 1 ∧
    ((applyEvent initialSys (.pointerDownCanvas plainClick)).pointerHeld = false →
      activeCount (applyEvent initialSys (.pointerDownCanvas plainClick)).app = 0) :=
  single_pointer_mutual_exclusion _
    (SPReachable.step (.pointerDownCanvas plainClick) SPReachable.init (by decide))

end LiteCanvas
